import Mathlib

/-!
Verification development for the market-discrepancy bot (`bot.py`).

The Python source is shallowly embedded: JSON values become an inductive
type `JsonVal`, Python floats are modelled exactly as rationals (`ℚ`),
fallible operations return `Option`/`Except`, and the HTTP interaction of
each fetch is abstracted into a `FetchOutcome` argument (network error /
timeout / response with status and payload), since the request itself is
I/O plumbing outside the decision logic.
-/

/-- A JSON value, as produced by `resp.json()` / `json.loads`.  Python's
`None` is `null`; numbers are modelled exactly as rationals. -/
inductive JsonVal : Type where
  | null : JsonVal
  | bool : Bool → JsonVal
  | num : ℚ → JsonVal
  | str : String → JsonVal
  | arr : List JsonVal → JsonVal
  | obj : List (String × JsonVal) → JsonVal

/-- Python truthiness (`if v:`): `None`, `False`, `0`, `""`, `[]`, `{}`
are falsy, everything else truthy. -/
def truthy : JsonVal → Bool
  | .null => false
  | .bool b => b
  | .num q => q ≠ 0
  | .str s => s ≠ ""
  | .arr l => !l.isEmpty
  | .obj l => !l.isEmpty

/-- Python dict lookup `m.get(k)`: the value for the first matching key,
`None` when absent. -/
def jget (kvs : List (String × JsonVal)) (k : String) : JsonVal :=
  match kvs.find? (fun p => p.1 = k) with
  | some p => p.2
  | none => .null

/-- Python dict membership test `k in payload`. -/
def dictContains (kvs : List (String × JsonVal)) (k : String) : Bool :=
  (kvs.find? (fun p => p.1 = k)).isSome

/-- Python `a or b`: `a` if truthy, else `b`. -/
def pyOr (a b : JsonVal) : JsonVal :=
  if truthy a then a else b

/-- Numeric value of a list of decimal digit characters. -/
def natOfDigits (cs : List Char) : ℕ :=
  cs.foldl (fun n c => n * 10 + (c.toNat - 48)) 0

/-- The unsigned part of Python `float(string)`: digits, an optional
fractional part, and an optional decimal exponent.  (`inf`/`nan` and
digit-group underscores, which the exchange APIs never send, are outside
the model.) -/
def parseUnsigned (cs : List Char) : Option ℚ :=
  let ip := cs.takeWhile Char.isDigit
  let r1 := cs.dropWhile Char.isDigit
  let fp : List Char := match r1 with
    | '.' :: t => t.takeWhile Char.isDigit
    | _ => []
  let r2 : List Char := match r1 with
    | '.' :: t => t.dropWhile Char.isDigit
    | _ => r1
  if ip.isEmpty && fp.isEmpty then none
  else
    let mant : ℚ := (natOfDigits ip : ℚ) + (natOfDigits fp : ℚ) / ((10 : ℚ) ^ fp.length)
    match r2 with
    | [] => some mant
    | 'e' :: t =>
      match (match t with
             | '+' :: u => some ((1 : ℤ), u)
             | '-' :: u => some ((-1 : ℤ), u)
             | u => some ((1 : ℤ), u)) with
      | some (sgn, t2) =>
        let ed := t2.takeWhile Char.isDigit
        let t3 := t2.dropWhile Char.isDigit
        if ed.isEmpty || !t3.isEmpty then none
        else some (mant * (10 : ℚ) ^ (sgn * (natOfDigits ed : ℤ)))
      | none => none
    | 'E' :: t =>
      match (match t with
             | '+' :: u => some ((1 : ℤ), u)
             | '-' :: u => some ((-1 : ℤ), u)
             | u => some ((1 : ℤ), u)) with
      | some (sgn, t2) =>
        let ed := t2.takeWhile Char.isDigit
        let t3 := t2.dropWhile Char.isDigit
        if ed.isEmpty || !t3.isEmpty then none
        else some (mant * (10 : ℚ) ^ (sgn * (natOfDigits ed : ℤ)))
      | none => none
    | _ => none

/-- Python `float(string)`: strip surrounding whitespace, optional sign,
then an unsigned decimal. -/
def strToFloat (s : String) : Option ℚ :=
  let cs := ((s.data.dropWhile Char.isWhitespace).reverse.dropWhile Char.isWhitespace).reverse
  match cs with
  | '+' :: rest => parseUnsigned rest
  | '-' :: rest => (parseUnsigned rest).map (fun q => -q)
  | _ => parseUnsigned cs

/-- Python `float(v)` with its exceptions made explicit: numbers pass
through, booleans become `1`/`0`, strings are parsed, and `None`, lists
and dicts raise (`.error`). -/
def floatConv : JsonVal → Except String ℚ
  | .num q => .ok q
  | .bool b => .ok (if b then 1 else 0)
  | .str s =>
    match strToFloat s with
    | some q => .ok q
    | none => .error "could not convert string to float"
  | .null => .error "float() argument must be a string or a real number, not NoneType"
  | .arr _ => .error "float() argument must be a string or a real number, not list"
  | .obj _ => .error "float() argument must be a string or a real number, not dict"

/-- Embeds `safe_float` (bot.py:44-48): `float(v)` under a bare `except`,
so any conversion failure yields `None` instead of propagating. -/
def safe_float (v : JsonVal) : Option ℚ :=
  (floatConv v).toOption

/-! ### A model of `json.loads` (used on string-encoded `outcomePrices`) -/

/-- Whitespace skipping between JSON tokens. -/
def jsonSkipWs (cs : List Char) : List Char :=
  cs.dropWhile (fun c => c = ' ' || c = '\t' || c = '\n' || c = '\r')

/-- Resolution of a single-character JSON escape (`\uXXXX` escapes, which
the price payloads never contain, are outside the model). -/
def jsonUnescape (c : Char) : Char :=
  if c = 'n' then '\n' else if c = 't' then '\t' else if c = 'r' then '\r' else c

/-- Body of a JSON string after the opening quote: the decoded string and
the remaining input. -/
def parseJStr : List Char → Option (String × List Char)
  | [] => none
  | '"' :: rest => some ("", rest)
  | '\\' :: c :: rest => (parseJStr rest).map (fun p => (String.mk (jsonUnescape c :: p.1.data), p.2))
  | c :: rest => (parseJStr rest).map (fun p => (String.mk (c :: p.1.data), p.2))

/-- Characters that may appear in a JSON number token. -/
def jsonNumChar (c : Char) : Bool :=
  c.isDigit || c = '-' || c = '+' || c = '.' || c = 'e' || c = 'E'

mutual

/-- One JSON value, fuel-bounded recursive descent. -/
def parseJVal : ℕ → List Char → Option (JsonVal × List Char)
  | 0, _ => none
  | fuel+1, cs =>
    match jsonSkipWs cs with
    | [] => none
    | '"' :: rest => (parseJStr rest).map (fun p => (JsonVal.str p.1, p.2))
    | '[' :: rest =>
      match jsonSkipWs rest with
      | ']' :: r2 => some (.arr [], r2)
      | _ => (parseJElems fuel rest).map (fun p => (JsonVal.arr p.1, p.2))
    | '{' :: rest =>
      match jsonSkipWs rest with
      | '}' :: r2 => some (.obj [], r2)
      | _ => (parseJFields fuel rest).map (fun p => (JsonVal.obj p.1, p.2))
    | 't' :: 'r' :: 'u' :: 'e' :: rest => some (.bool true, rest)
    | 'f' :: 'a' :: 'l' :: 's' :: 'e' :: rest => some (.bool false, rest)
    | 'n' :: 'u' :: 'l' :: 'l' :: rest => some (.null, rest)
    | c :: rest =>
      let nc := (c :: rest).takeWhile jsonNumChar
      let r2 := (c :: rest).dropWhile jsonNumChar
      if nc.isEmpty then none
      else
        match strToFloat (String.mk nc) with
        | some q => some (.num q, r2)
        | none => none

/-- Comma-separated array elements up to the closing bracket. -/
def parseJElems : ℕ → List Char → Option (List JsonVal × List Char)
  | 0, _ => none
  | fuel+1, cs =>
    match parseJVal fuel cs with
    | none => none
    | some (v, r) =>
      match jsonSkipWs r with
      | ',' :: r2 => (parseJElems fuel r2).map (fun p => (v :: p.1, p.2))
      | ']' :: r2 => some ([v], r2)
      | _ => none

/-- Comma-separated object fields up to the closing brace. -/
def parseJFields : ℕ → List Char → Option (List (String × JsonVal) × List Char)
  | 0, _ => none
  | fuel+1, cs =>
    match jsonSkipWs cs with
    | '"' :: rest =>
      match parseJStr rest with
      | none => none
      | some (k, r) =>
        match jsonSkipWs r with
        | ':' :: r2 =>
          match parseJVal fuel r2 with
          | none => none
          | some (v, r3) =>
            match jsonSkipWs r3 with
            | ',' :: r4 => (parseJFields fuel r4).map (fun p => ((k, v) :: p.1, p.2))
            | '}' :: r4 => some ([(k, v)], r4)
            | _ => none
        | _ => none
    | _ => none

end

/-- Models `json.loads`: parse one value, require only whitespace after
it, fail (`None` = raised `JSONDecodeError`) otherwise.  The fuel
`2 * length + 2` covers any input, since at least one character is
consumed for every two units of fuel spent. -/
def jsonLoads (s : String) : Option JsonVal :=
  match parseJVal (2 * s.length + 2) s.data with
  | some (v, r) => if (jsonSkipWs r).isEmpty then some v else none
  | none => none

/-! ### Remaining Python primitives used by the record loops -/

/-- Python `len(v)`: defined for lists, dicts and strings; raises
(`none`) for numbers, booleans and `None`. -/
def pyLen : JsonVal → Option ℕ
  | .arr l => some l.length
  | .obj l => some l.length
  | .str s => some s.length
  | _ => none

/-- Python `v[0]`: first element of a list, first character of a string;
raises (`none`) on a dict (JSON object keys are strings, so the integer
key `0` is absent) and on scalars. -/
def pyIndex0 : JsonVal → Option JsonVal
  | .arr (x :: _) => some x
  | .str s =>
    match s.data with
    | c :: _ => some (.str (String.mk [c]))
    | [] => none
  | _ => none

/-- Python iteration `for m in v`: a list yields its elements, a dict its
keys, a string its characters; scalars raise TypeError (`none`). -/
def iterElems : JsonVal → Option (List JsonVal)
  | .arr l => some l
  | .obj kvs => some (kvs.map (fun p => JsonVal.str p.1))
  | .str s => some (s.data.map (fun c => JsonVal.str (String.mk [c])))
  | _ => none

/-- Python string conversion as used in the f-string keys
(`f"poly|{m.get('id')}"`).  Integer-valued numbers render as Python ints
do; the rendering of non-integer numbers and composite values is a coarse
stand-in (the APIs send string or integer ids). -/
def pyStr : JsonVal → String
  | .null => "None"
  | .bool true => "True"
  | .bool false => "False"
  | .str s => s
  | .num q => if q.den = 1 then toString q.num else toString q.num ++ "/" ++ toString q.den
  | .arr _ => "[...]"
  | .obj _ => "\x7b...\x7d"

/-! ### The normalized market record and the fetch outcome abstraction -/

/-- One entry of the `markets` list built by a fetch (the spec's
`MarketObservation`).  `question` keeps the raw JSON value, as the code
stores `m.get(...)` unconverted. -/
structure Market where
  key : String
  platform : String
  question : JsonVal
  liquidity : ℚ
  prob : ℚ

/-- Outcome of the HTTP interaction of one fetch: either some exception
during request setup or transfer (network error, timeout, bad
credentials), or a response with a status code and a JSON payload. -/
inductive FetchOutcome : Type where
  | netError : FetchOutcome
  | response : ℕ → JsonVal → FetchOutcome

/-! ### fetch_polymarket (bot.py:52-144) -/

/-- Defensive payload-shape dispatch of `fetch_polymarket`
(bot.py:67-83): a list is used directly, a dict is unwrapped under its
`data` (preferred) or `markets` key, anything else is unknown (`none`,
leading to an empty result). -/
def extractPolyData : JsonVal → Option JsonVal
  | .arr l => some (.arr l)
  | .obj kvs =>
    if dictContains kvs "data" then some (jget kvs "data")
    else if dictContains kvs "markets" then some (jget kvs "markets")
    else none
  | _ => none

/-- Liquidity parse of a Polymarket record (bot.py:96-98):
`safe_float(m.get("liquidity") or m.get("liquidityNum"))`. -/
def polyLiquidity (kvs : List (String × JsonVal)) : Option ℚ :=
  safe_float (pyOr (jget kvs "liquidity") (jget kvs "liquidityNum"))

/-- Outcome-price extraction of a Polymarket record (bot.py:106-116):
`m.get("outcomePrices") or m.get("outcome_prices")`, run through
`json.loads` when it is a string (a parse failure is `continue`). -/
def polyPricesVal (kvs : List (String × JsonVal)) : Option JsonVal :=
  match pyOr (jget kvs "outcomePrices") (jget kvs "outcome_prices") with
  | .str s => jsonLoads s
  | v => some v

/-- Price-list validation of a Polymarket record (bot.py:118-125):
require a truthy value of length exactly 2 (a failing `len()` or
indexing is the per-record `except`), then parse the first (YES)
price. -/
def polyPriceCheck (prices : JsonVal) : Option ℚ :=
  if !truthy prices then none
  else
    match pyLen prices with
    | none => none
    | some n =>
      if n ≠ 2 then none
      else
        match pyIndex0 prices with
        | none => none
        | some p0 => safe_float p0

/-- Body of the per-record loop of `fetch_polymarket` (bot.py:87-137).
Every failure path is `none` = `continue`: the explicit skips (closed,
inactive, missing/zero liquidity, bad price list, unparseable first
price) and the per-record `except` that catches attribute/type/key
errors on malformed records. -/
def polyRecord (m : JsonVal) : Option Market :=
  match m with
  | .obj kvs =>
    if truthy (jget kvs "closed") then none
    else if !truthy (jget kvs "active") then none
    else
      match polyLiquidity kvs with
      | none => none
      | some liquidity =>
        if liquidity = 0 then none
        else
          match polyPricesVal kvs with
          | none => none
          | some prices =>
            match polyPriceCheck prices with
            | none => none
            | some yes_price =>
              some { key := "poly|" ++ pyStr (jget kvs "id"),
                     platform := "Polymarket",
                     question := jget kvs "question",
                     liquidity := liquidity,
                     prob := yes_price }
  | _ => none

/-- Embeds `fetch_polymarket` (bot.py:52-144): empty on network error, on
a non-200 status, on an unrecognized payload shape, and on a
non-iterable extracted data value (the outer `except` returns the still
empty `markets` list); otherwise the per-record loop over the data. -/
def fetch_polymarket : FetchOutcome → List Market
  | .netError => []
  | .response status payload =>
    if status ≠ 200 then []
    else
      match extractPolyData payload with
      | none => []
      | some data =>
        match iterElems data with
        | none => []
        | some l => l.filterMap polyRecord

/-! ### fetch_kalshi (bot.py:174-230) -/

/-- Python truthiness of an `os.environ.get` result: absent (`None`) and
the empty string are falsy. -/
def truthyEnv : Option String → Bool
  | none => false
  | some s => s ≠ ""

/-- Body of the per-record loop of `fetch_kalshi` (bot.py:212-225) for a
dict record: skip (`none`) when `liquidity` or `yes_bid` fails to parse,
else the normalized market with `prob = yes_bid / 100`. -/
def kalshiRecord (kvs : List (String × JsonVal)) : Option Market :=
  match safe_float (jget kvs "liquidity"), safe_float (jget kvs "yes_bid") with
  | some liquidity, some yes_bid =>
    some { key := "kalshi|" ++ pyStr (jget kvs "ticker"),
           platform := "Kalshi",
           question := jget kvs "title",
           liquidity := liquidity,
           prob := yes_bid / 100 }
  | _, _ => none

/-- Record loop of `fetch_kalshi`: dict records are parsed or skipped
individually, but a non-dict record raises on `m.get` and the loop has no
per-record `except` — the outer handler returns the markets accumulated
so far, dropping the rest of the batch. -/
def kalshiLoop : List JsonVal → List Market
  | [] => []
  | .obj kvs :: rest =>
    match kalshiRecord kvs with
    | some mk => mk :: kalshiLoop rest
    | none => kalshiLoop rest
  | _ :: _ => []

/-- Embeds `fetch_kalshi` (bot.py:174-230): empty when either credential
is unset/empty (skipped before any request), on request failure
(including bad base64 in the secret, covered by `netError`), on a
non-200 status, on a non-dict payload (`payload.get` raises), and on a
non-iterable `markets` value (`len` raises); otherwise the record loop
over the `markets` entries (default `[]`). -/
def fetch_kalshi (apiKey apiSecret : Option String) : FetchOutcome → List Market
  | .netError => []
  | .response status payload =>
    if !truthyEnv apiKey || !truthyEnv apiSecret then []
    else if status ≠ 200 then []
    else
      match payload with
      | .obj kvs =>
        let raw : JsonVal := match kvs.find? (fun p => p.1 = "markets") with
          | some p => p.2
          | none => .arr []
        match iterElems raw with
        | none => []
        | some l => kalshiLoop l
      | _ => []

/-! ### fetch_manifold (bot.py:234-269) -/

/-- Body of the per-record loop of `fetch_manifold` (bot.py:248-264) for
a dict record: resolved markets and records whose `volume24Hours` or
`probability` fails to parse are skipped. -/
def manifoldRecord (kvs : List (String × JsonVal)) : Option Market :=
  if truthy (jget kvs "isResolved") then none
  else
    match safe_float (jget kvs "volume24Hours"), safe_float (jget kvs "probability") with
    | some liquidity, some prob =>
      some { key := "manifold|" ++ pyStr (jget kvs "id"),
             platform := "Manifold",
             question := jget kvs "question",
             liquidity := liquidity,
             prob := prob }
    | _, _ => none

/-- Record loop of `fetch_manifold`: like Kalshi, no per-record `except`,
so a non-dict record raises on `m.get` and the outer handler returns the
markets accumulated so far. -/
def manifoldLoop : List JsonVal → List Market
  | [] => []
  | .obj kvs :: rest =>
    match manifoldRecord kvs with
    | some mk => mk :: manifoldLoop rest
    | none => manifoldLoop rest
  | _ :: _ => []

/-- Embeds `fetch_manifold` (bot.py:234-269): empty on network error, on
a non-200 status and on a non-sized payload (`len(payload)` raises);
otherwise the record loop over the payload's iteration elements. -/
def fetch_manifold : FetchOutcome → List Market
  | .netError => []
  | .response status payload =>
    if status ≠ 200 then []
    else
      match iterElems payload with
      | none => []
      | some l => manifoldLoop l

/-! ### Startup credential check (bot.py:313-316) and the main loop -/

/-- Embeds the module-level startup guard: `if not DISCORD_TOKEN: raise
RuntimeError(...)`, then `client.run(token)`. -/
def startupCheck (token : Option String) : Except String Unit :=
  if !truthyEnv token then .error "DISCORD_TOKEN not set"
  else .ok ()

/-- Observable outcome of one execution of the body of the `while` in
`market_loop` (bot.py:279-299): the three fetches and logging either
complete, or raise an exception that the body's `except` catches. -/
inductive CycleOutcome : Type where
  | ok : CycleOutcome
  | errored : CycleOutcome

/-- Control state of `market_loop`: still looping having completed `n`
cycles, or stopped (the `while not client.is_closed()` condition failed)
after `n` cycles. -/
inductive LoopState : Type where
  | running : ℕ → LoopState
  | stopped : ℕ → LoopState

/-- One turn of the `while` loop of `market_loop` (bot.py:278-301):
check the shutdown condition; if still open run the body — whose outcome,
ok or errored, is absorbed by the try/except (the wildcard match) — then
sleep and come back around. -/
def market_loop_step (closed : ℕ → Bool) (body : ℕ → CycleOutcome) : LoopState → LoopState
  | .running n =>
    if closed n then .stopped n
    else
      match body n with
      | _ => .running (n + 1)
  | .stopped n => .stopped n

/-- State of `market_loop` after `k` turns of the `while` loop, for a
given shutdown signal and per-cycle body outcome. -/
def market_loop_iter (closed : ℕ → Bool) (body : ℕ → CycleOutcome) (k : ℕ) : LoopState :=
  (market_loop_step closed body)^[k] (.running 0)

/-! ### Liquidity Window Tracker (spec §4.1) — not present under src/ -/

/-- Modelled from the spec: the Liquidity Window Tracker is missing from
src/ (bot.py stops at fetching and logging).  Spec §3/§4.1:
`recordDelta(key, delta)` appends `delta` to the window for `key`,
creating the window if absent; evicts the oldest entry (FIFO) if size
exceeds the fixed capacity `N`.  State is the per-key map of windows,
oldest delta first. -/
def recordDelta (N : ℕ) (st : String → List ℚ) (key : String) (d : ℚ) :
    String → List ℚ :=
  fun k =>
    if k = key then
      let ds := st key ++ [d]
      if N < ds.length then ds.drop (ds.length - N) else ds
    else st k

/-- Modelled from the spec: the Liquidity Window Tracker is missing from
src/.  Spec §4.1: `netLiquidity(key)` is the sum of all deltas currently
in the window; `0` for an unknown key (here: the empty window). -/
def netLiquidity (st : String → List ℚ) (key : String) : ℚ :=
  (st key).sum

/-- Modelled from the spec: tracker state before any delta was recorded
(windows are created on first delta for a key). -/
def emptyTracker : String → List ℚ := fun _ => []

/-- Modelled from the spec: the tracker state after recording a sequence
of `(key, delta)` events, in order, starting from the empty tracker. -/
def runDeltas (N : ℕ) (events : List (String × ℚ)) : String → List ℚ :=
  events.foldl (fun st e => recordDelta N st e.1 e.2) emptyTracker

/-- The subsequence of deltas recorded for one key, in order. -/
def deltasFor (key : String) (events : List (String × ℚ)) : List ℚ :=
  (events.filter (fun e => e.1 = key)).map Prod.snd

/-! ### Setup Lifecycle Engine (spec §4.2) — not present under src/ -/

/-- Side of a setup (spec §3). -/
inductive Side : Type where
  | yes : Side
  | no : Side
deriving DecidableEq

/-- Modelled from the spec: the Setup record of the Lifecycle Engine,
missing from src/.  Spec §3: `{marketKey, side, entryPrice, openedAt,
confirmed}`. -/
structure Setup where
  marketKey : String
  side : Side
  entryPrice : ℚ
  openedAt : ℕ
  confirmed : Bool
deriving DecidableEq

/-- Modelled from the spec: the lifecycle thresholds of §6 (poll
interval and discrepancy settings omitted — not used by the engine
transitions). -/
structure LifecycleConfig where
  alertThreshold : ℚ
  whaleThreshold : ℚ
  confirmPct : ℚ
  setupExpiry : ℕ

/-- Lifecycle alerts (spec §3 Alert, restricted to the lifecycle
transitions). -/
inductive Alert : Type where
  | sharpLiquidityMove : String → Side → Bool → Alert
  | confirmedMove : String → Alert
  | invalidated : String → String → Alert
deriving DecidableEq

/-- The open-setups map of the Lifecycle Engine, as an association list
keyed by market key. -/
abbrev OpenSetups := List (String × Setup)

/-- Lookup of the open setup for a key, if any. -/
def lookupSetup (st : OpenSetups) (key : String) : Option Setup :=
  (st.find? (fun p => p.1 = key)).map Prod.snd

/-- Removal of the setup for a key from the open-setups map. -/
def removeSetup (st : OpenSetups) (key : String) : OpenSetups :=
  st.filter (fun p => p.1 ≠ key)

/-- Flip of the `confirmed` flag of the setup for a key, in place. -/
def confirmSetup (st : OpenSetups) (key : String) : OpenSetups :=
  st.map (fun p => if p.1 = key then (p.1, { p.2 with confirmed := true }) else p)

/-- Price of the held side given the current probability (spec §4.2:
`probability` if side is YES else `1 - probability`). -/
def sidePrice (side : Side) (prob : ℚ) : ℚ :=
  match side with
  | .yes => prob
  | .no => 1 - prob

/-- Modelled from the spec: the per-key, per-cycle transition of the
Setup Lifecycle Engine, missing from src/.  Spec §4.2, in the specified
order: a missing reading skips the key; else expiry check
(`now - openedAt > SetupExpiry`), then reversal check
(`|netLiquidity| < AlertThreshold`), then sticky confirmation
(`movePct ≥ ConfirmPct`), then — only when no setup is open — the
new-trigger check (`|netLiquidity| ≥ AlertThreshold`, side NO on a
negative net delta with entry `1 - probability`, side YES otherwise with
entry `probability`, whale tagging at `|net| ≥ WhaleThreshold`). -/
def stepKey (cfg : LifecycleConfig) (now : ℕ) (key : String)
    (reading : Option (ℚ × ℚ)) (st : OpenSetups) : OpenSetups × List Alert :=
  match reading with
  | none => (st, [])
  | some (net, prob) =>
    match lookupSetup st key with
    | some s =>
      if cfg.setupExpiry < now - s.openedAt then
        (removeSetup st key, [.invalidated key "timed out"])
      else if |net| < cfg.alertThreshold then
        (removeSetup st key, [.invalidated key "liquidity reversed"])
      else if !s.confirmed && cfg.confirmPct ≤ (sidePrice s.side prob - s.entryPrice) / s.entryPrice then
        (confirmSetup st key, [.confirmedMove key])
      else (st, [])
    | none =>
      if cfg.alertThreshold ≤ |net| then
        let side : Side := if net < 0 then .no else .yes
        ((key, { marketKey := key, side := side, entryPrice := sidePrice side prob,
                 openedAt := now, confirmed := false }) :: st,
         [.sharpLiquidityMove key side (cfg.whaleThreshold ≤ |net|)])
      else (st, [])

/-- Modelled from the spec: one poll cycle of the Lifecycle Engine over
the cycle's per-key readings (`none` = missing probability or liquidity,
the key is skipped). -/
def stepCycle (cfg : LifecycleConfig) (now : ℕ)
    (readings : List (String × Option (ℚ × ℚ))) (st : OpenSetups) : OpenSetups :=
  readings.foldl (fun acc r => (stepKey cfg now r.1 r.2 acc).1) st

/-- Modelled from the spec: the open-setups map reached from the empty
map by a sequence of poll cycles, each with its timestamp and readings. -/
def runCycles (cfg : LifecycleConfig)
    (cycles : List (ℕ × List (String × Option (ℚ × ℚ)))) : OpenSetups :=
  cycles.foldl (fun st c => stepCycle cfg c.1 c.2 st) []

/-- No two entries of the open-setups map share a market key. -/
def keysNodup (st : OpenSetups) : Prop :=
  (st.map Prod.fst).Nodup

/-! ## Claims -/

/-- C9: `safe_float` is total — for every input it either returns the
float conversion of the value (when `float(v)` succeeds) or returns
`None` (when `float(v)` raises); it never propagates the exception, for
any input including `None`, non-numeric strings, and non-string
non-numeric objects. -/
theorem C9_safe_float_total (v : JsonVal) :
    (∃ q, floatConv v = .ok q ∧ safe_float v = some q) ∨
    (∃ e, floatConv v = .error e ∧ safe_float v = none) := by
  cases h : floatConv v with
  | ok q => exact .inl ⟨q, rfl, by simp [safe_float, h, Except.toOption]⟩
  | error e => exact .inr ⟨e, rfl, by simp [safe_float, h, Except.toOption]⟩

/-- C8: the poll loop of `market_loop` runs unboundedly — while the
shutdown signal stays false every cycle begins, a body outcome (ok or
errored) never changes the transition, and the loop only ever stops at a
point where the shutdown signal is true. -/
theorem C8_loop_unbounded (closed : ℕ → Bool) (body : ℕ → CycleOutcome) :
    ((∀ n, closed n = false) → ∀ k, market_loop_iter closed body k = .running k)
    ∧ (∀ n, closed n = false → market_loop_step closed body (.running n) = .running (n + 1))
    ∧ (∀ body2 : ℕ → CycleOutcome, market_loop_step closed body = market_loop_step closed body2)
    ∧ (∀ k n, market_loop_iter closed body k = .stopped n → closed n = true) := by
  refine ⟨?_, ?_, ?_, ?_⟩
  · intro hopen k
    induction k with
    | zero => rfl
    | succ k ih =>
      rw [market_loop_iter, Function.iterate_succ_apply', ← market_loop_iter, ih]
      simp [market_loop_step, hopen k]
  · intro n hn
    simp [market_loop_step, hn]
  · intro body2
    funext st
    cases st with
    | running n => simp [market_loop_step]
    | stopped n => rfl
  · intro k
    induction k with
    | zero => intro n h; simp [market_loop_iter] at h
    | succ k ih =>
      intro n h
      rw [market_loop_iter, Function.iterate_succ_apply', ← market_loop_iter] at h
      cases hst : market_loop_iter closed body k with
      | running m =>
        rw [hst] at h
        by_cases hc : closed m = true
        · have hmn : m = n := by
            simp [market_loop_step, hc] at h
            exact h
          exact hmn ▸ hc
        · exfalso
          cases hb : body m with
          | ok => simp [market_loop_step, hc, hb] at h
          | errored => simp [market_loop_step, hc, hb] at h
      | stopped m =>
        rw [hst] at h
        simp [market_loop_step] at h
        exact h ▸ ih m hst

/-- Witness for C8 at a concrete shutdown signal and an always-erroring
body: after three turns the loop is still running its fourth cycle. -/
theorem C8_loop_unbounded_witness :
    market_loop_iter (fun _ => false) (fun _ => .errored) 3 = .running 3 :=
  (C8_loop_unbounded (fun _ => false) (fun _ => .errored)).1 (fun _ => rfl) 3

/-- C7: a missing `DISCORD_TOKEN` is fatal at startup (the guard raises
before `client.run`), a truthy token passes the guard, and a missing
Kalshi credential discovered at fetch time degrades that exchange to an
empty contribution — `fetch_kalshi` is a total function returning `[]`,
never a raised error. -/
theorem C7_credential_handling (tok ak as : Option String) (out : FetchOutcome) :
    startupCheck none = .error "DISCORD_TOKEN not set"
    ∧ (truthyEnv tok = true → startupCheck tok = .ok ())
    ∧ (truthyEnv ak = false ∨ truthyEnv as = false → fetch_kalshi ak as out = []) := by
  refine ⟨rfl, ?_, ?_⟩
  · intro h
    simp [startupCheck, h]
  · intro h
    cases out with
    | netError => rfl
    | response status payload =>
      rcases h with h | h <;> simp [fetch_kalshi, h]

/-- Witness for C7: a set token passes the guard, and with the Kalshi key
absent the fetch of a well-formed 200 response is still empty. -/
theorem C7_credential_handling_witness :
    startupCheck (some "tok") = .ok ()
    ∧ fetch_kalshi none (some "sec") (.response 200 (.obj [("markets", .arr [])])) = [] :=
  ⟨(C7_credential_handling (some "tok") none (some "sec")
      (.response 200 (.obj [("markets", .arr [])]))).2.1 rfl,
   (C7_credential_handling (some "tok") none (some "sec")
      (.response 200 (.obj [("markets", .arr [])]))).2.2 (Or.inl rfl)⟩

/-- A non-dict record at the head of the Kalshi loop raises on `m.get`
and the outer handler returns the markets accumulated so far — none, at
the head. -/
theorem kalshiLoop_cons_ne_obj (v : JsonVal) (rest : List JsonVal)
    (h : ∀ kvs, v ≠ .obj kvs) : kalshiLoop (v :: rest) = [] := by
  cases v with
  | obj kvs => exact absurd rfl (h kvs)
  | null => rfl
  | bool b => rfl
  | num q => rfl
  | str s => rfl
  | arr l => rfl

/-- A non-dict record at the head of the Manifold loop likewise stops
the loop with nothing accumulated. -/
theorem manifoldLoop_cons_ne_obj (v : JsonVal) (rest : List JsonVal)
    (h : ∀ kvs, v ≠ .obj kvs) : manifoldLoop (v :: rest) = [] := by
  cases v with
  | obj kvs => exact absurd rfl (h kvs)
  | null => rfl
  | bool b => rfl
  | num q => rfl
  | str s => rfl
  | arr l => rfl

/-- C3: every fetch fails soft — on a network error or timeout, on a
non-2xx (here: any non-200) status, and on a payload of unrecognized
shape, each of `fetch_polymarket`, `fetch_kalshi` and `fetch_manifold`
returns the empty list instead of propagating the failure. -/
theorem C3_fetch_fail_soft (ak as : Option String) (status : ℕ) (p : JsonVal) :
    (fetch_polymarket .netError = []
      ∧ fetch_kalshi ak as .netError = []
      ∧ fetch_manifold .netError = [])
    ∧ (status ≠ 200 →
        fetch_polymarket (.response status p) = []
        ∧ fetch_kalshi ak as (.response status p) = []
        ∧ fetch_manifold (.response status p) = [])
    ∧ (extractPolyData p = none → fetch_polymarket (.response 200 p) = [])
    ∧ ((∀ kvs, p ≠ .obj kvs) → fetch_kalshi ak as (.response 200 p) = [])
    ∧ ((∀ l, p ≠ .arr l) → fetch_manifold (.response 200 p) = []) := by
  refine ⟨⟨rfl, rfl, rfl⟩, ?_, ?_, ?_, ?_⟩
  · intro h
    refine ⟨by simp [fetch_polymarket, h], ?_, by simp [fetch_manifold, h]⟩
    by_cases hc : (!truthyEnv ak || !truthyEnv as) = true
    · simp [fetch_kalshi, hc]
    · simp [fetch_kalshi, hc, h]
  · intro h
    simp [fetch_polymarket, h]
  · intro h
    by_cases hc : (!truthyEnv ak || !truthyEnv as) = true
    · simp [fetch_kalshi, hc]
    · cases p with
      | obj kvs => exact absurd rfl (h kvs)
      | null => simp [fetch_kalshi, hc]
      | bool b => simp [fetch_kalshi, hc]
      | num q => simp [fetch_kalshi, hc]
      | str s => simp [fetch_kalshi, hc]
      | arr l => simp [fetch_kalshi, hc]
  · intro h
    cases p with
    | arr l => exact absurd rfl (h l)
    | null => rfl
    | bool b => rfl
    | num q => rfl
    | str s =>
      show (match iterElems (.str s) with
            | none => []
            | some l => manifoldLoop l) = []
      cases hd : s.data with
      | nil => simp [iterElems, hd, manifoldLoop]
      | cons c cs =>
        simp only [iterElems, hd, List.map_cons]
        exact manifoldLoop_cons_ne_obj _ _ (fun kvs hk => JsonVal.noConfusion hk)
    | obj kvs =>
      show (match iterElems (.obj kvs) with
            | none => []
            | some l => manifoldLoop l) = []
      cases kvs with
      | nil => simp [iterElems, manifoldLoop]
      | cons kv rest =>
        simp only [iterElems, List.map_cons]
        exact manifoldLoop_cons_ne_obj _ _ (fun kvs2 hk => JsonVal.noConfusion hk)

/-- Witness for C3: a 404 Polymarket response, a string-shaped Kalshi
payload and an object-shaped Manifold payload all yield empty market
lists. -/
theorem C3_fetch_fail_soft_witness :
    fetch_polymarket (.response 404 .null) = []
    ∧ fetch_kalshi (some "k") (some "s") (.response 200 (.str "oops")) = []
    ∧ fetch_manifold (.response 200 (.obj [("error", .str "down")])) = [] :=
  ⟨((C3_fetch_fail_soft (some "k") (some "s") 404 .null).2.1 (by decide)).1,
   (C3_fetch_fail_soft (some "k") (some "s") 404 (.str "oops")).2.2.2.1
     (fun kvs hk => JsonVal.noConfusion hk),
   (C3_fetch_fail_soft (some "k") (some "s") 404 (.obj [("error", .str "down")])).2.2.2.2
     (fun l hl => JsonVal.noConfusion hl)⟩

/-- In the Kalshi loop, a dict record whose fields fail to parse is
skipped and the rest of the batch still processes. -/
theorem kalshiLoop_skip_parse_failure (l1 l2 : List JsonVal)
    (kvs : List (String × JsonVal)) (h : kalshiRecord kvs = none) :
    kalshiLoop (l1 ++ .obj kvs :: l2) = kalshiLoop (l1 ++ l2) := by
  induction l1 with
  | nil => simp [kalshiLoop, h]
  | cons v l1 ih =>
    cases v with
    | obj kvs2 =>
      simp only [List.cons_append, kalshiLoop]
      cases kalshiRecord kvs2 <;> simp [ih]
    | null => rfl
    | bool b => rfl
    | num q => rfl
    | str s => rfl
    | arr l => rfl

/-- In the Kalshi loop, a record of non-dict shape stops processing: the
records already parsed are returned, the remainder of the batch is
dropped. -/
theorem kalshiLoop_abort (l1 l2 : List JsonVal) (m : JsonVal)
    (h1 : ∀ x ∈ l1, ∃ kvs, x = .obj kvs) (h2 : ∀ kvs, m ≠ .obj kvs) :
    kalshiLoop (l1 ++ m :: l2) = kalshiLoop l1 := by
  induction l1 with
  | nil => rw [List.nil_append]; exact kalshiLoop_cons_ne_obj m l2 h2
  | cons v l1 ih =>
    obtain ⟨kvs, rfl⟩ := h1 v (List.mem_cons_self v l1)
    have ih2 := ih (fun x hx => h1 x (List.mem_cons_of_mem _ hx))
    simp only [List.cons_append, kalshiLoop]
    cases kalshiRecord kvs <;> simp [ih2]

/-- In the Manifold loop, a dict record whose fields fail to parse (or
that is resolved) is skipped and the rest of the batch still processes. -/
theorem manifoldLoop_skip_parse_failure (l1 l2 : List JsonVal)
    (kvs : List (String × JsonVal)) (h : manifoldRecord kvs = none) :
    manifoldLoop (l1 ++ .obj kvs :: l2) = manifoldLoop (l1 ++ l2) := by
  induction l1 with
  | nil => simp [manifoldLoop, h]
  | cons v l1 ih =>
    cases v with
    | obj kvs2 =>
      simp only [List.cons_append, manifoldLoop]
      cases manifoldRecord kvs2 <;> simp [ih]
    | null => rfl
    | bool b => rfl
    | num q => rfl
    | str s => rfl
    | arr l => rfl

/-- In the Manifold loop, a record of non-dict shape stops processing,
returning only the records already parsed. -/
theorem manifoldLoop_abort (l1 l2 : List JsonVal) (m : JsonVal)
    (h1 : ∀ x ∈ l1, ∃ kvs, x = .obj kvs) (h2 : ∀ kvs, m ≠ .obj kvs) :
    manifoldLoop (l1 ++ m :: l2) = manifoldLoop l1 := by
  induction l1 with
  | nil => rw [List.nil_append]; exact manifoldLoop_cons_ne_obj m l2 h2
  | cons v l1 ih =>
    obtain ⟨kvs, rfl⟩ := h1 v (List.mem_cons_self v l1)
    have ih2 := ih (fun x hx => h1 x (List.mem_cons_of_mem _ hx))
    simp only [List.cons_append, manifoldLoop]
    cases manifoldRecord kvs <;> simp [ih2]

/-- C4 counterexample: in `fetch_kalshi` a record of unexpected shape
(the number `7`) does not merely skip itself — the well-formed record
after it is dropped from the result, although that record parses fine on
its own.  This refutes the claim that one bad record never affects the
rest of the batch. -/
theorem C4_counterexample :
    fetch_kalshi (some "k") (some "s")
      (.response 200 (.obj [("markets", .arr
        [.obj [("liquidity", .num 100), ("yes_bid", .num 40),
               ("ticker", .str "T1"), ("title", .str "Q1")],
         .num 7,
         .obj [("liquidity", .num 200), ("yes_bid", .num 60),
               ("ticker", .str "T2"), ("title", .str "Q2")]])]))
      = [⟨"kalshi|T1", "Kalshi", .str "Q1", 100, 2/5⟩]
    ∧ fetch_kalshi (some "k") (some "s")
      (.response 200 (.obj [("markets", .arr
        [.obj [("liquidity", .num 200), ("yes_bid", .num 60),
               ("ticker", .str "T2"), ("title", .str "Q2")]])]))
      = [⟨"kalshi|T2", "Kalshi", .str "Q2", 200, 3/5⟩] := by
  constructor
  · simp +decide [fetch_kalshi, truthyEnv, iterElems, kalshiLoop, kalshiRecord,
      jget, safe_float, floatConv, pyStr, Except.toOption]
    norm_num
  · simp +decide [fetch_kalshi, truthyEnv, iterElems, kalshiLoop, kalshiRecord,
      jget, safe_float, floatConv, pyStr, Except.toOption]
    norm_num

/-- C4 (amended): in `fetch_polymarket` every bad record — unexpected
shape or missing/unparseable field — is skipped individually and the
rest of the batch still processes.  In `fetch_kalshi` and
`fetch_manifold` a dict record with missing or unparseable fields is
likewise skipped individually, but a record of non-dict shape stops
processing of the remaining records of its batch (the records already
parsed are still returned). -/
theorem C4_per_record_isolation (l1 l2 : List JsonVal) (m : JsonVal)
    (kvs : List (String × JsonVal)) :
    (fetch_polymarket (.response 200 (.arr l1)) = l1.filterMap polyRecord)
    ∧ (polyRecord m = none →
        (l1 ++ m :: l2).filterMap polyRecord = (l1 ++ l2).filterMap polyRecord)
    ∧ (kalshiRecord kvs = none →
        kalshiLoop (l1 ++ .obj kvs :: l2) = kalshiLoop (l1 ++ l2))
    ∧ ((∀ x ∈ l1, ∃ kvs2, x = .obj kvs2) → (∀ kvs2, m ≠ .obj kvs2) →
        kalshiLoop (l1 ++ m :: l2) = kalshiLoop l1)
    ∧ (manifoldRecord kvs = none →
        manifoldLoop (l1 ++ .obj kvs :: l2) = manifoldLoop (l1 ++ l2))
    ∧ ((∀ x ∈ l1, ∃ kvs2, x = .obj kvs2) → (∀ kvs2, m ≠ .obj kvs2) →
        manifoldLoop (l1 ++ m :: l2) = manifoldLoop l1) := by
  refine ⟨rfl, ?_, kalshiLoop_skip_parse_failure l1 l2 kvs,
    kalshiLoop_abort l1 l2 m, manifoldLoop_skip_parse_failure l1 l2 kvs,
    manifoldLoop_abort l1 l2 m⟩
  intro h
  simp [List.filterMap_append, List.filterMap_cons, h]

/-- Witness for C4 (amended) at a concrete batch: a `null` Polymarket
record in mid-batch is skipped with both neighbours kept, and a
non-dict Kalshi record drops everything after it. -/
theorem C4_per_record_isolation_witness :
    ([JsonVal.obj [("active", .bool true), ("closed", .bool true)], .null]
        ++ JsonVal.null :: [JsonVal.null]).filterMap polyRecord
      = ([JsonVal.obj [("active", .bool true), ("closed", .bool true)], .null]
        ++ [JsonVal.null]).filterMap polyRecord
    ∧ kalshiLoop ([JsonVal.obj [("liquidity", .str "x")]] ++ JsonVal.num 7 :: [JsonVal.obj []])
      = kalshiLoop [JsonVal.obj [("liquidity", .str "x")]] :=
  ⟨(C4_per_record_isolation [JsonVal.obj [("active", .bool true), ("closed", .bool true)], .null]
      [JsonVal.null] .null []).2.1 rfl,
   (C4_per_record_isolation [JsonVal.obj [("liquidity", .str "x")]]
      [JsonVal.obj []] (.num 7) []).2.2.2.1
     (by intro x hx; simp at hx; exact ⟨_, hx⟩)
     (fun kvs2 hk => JsonVal.noConfusion hk)⟩

/-- Lookup on a dict given by a leading binding: the binding wins when
its key matches, otherwise lookup continues in the rest. -/
theorem jget_cons (k' k : String) (v : JsonVal) (kvs : List (String × JsonVal)) :
    jget ((k', v) :: kvs) k = if k' = k then v else jget kvs k := by
  by_cases h : k' = k
  · simp [jget, List.find?_cons, h]
  · simp [jget, List.find?_cons, h]

/-- A string that `float()` converts successfully is nonempty (hence
truthy). -/
theorem strToFloat_some_ne_empty {s : String} {q : ℚ} (h : strToFloat s = some q) :
    s ≠ "" := by
  intro he
  subst he
  have hnone : strToFloat "" = none := by decide
  rw [hnone] at h
  cases h

/-- A successful string parse makes `safe_float` return the parsed
value. -/
theorem safe_float_str_of_parse {s : String} {q : ℚ} (h : strToFloat s = some q) :
    safe_float (.str s) = some q := by
  simp [safe_float, floatConv, h, Except.toOption]

/-- On a number, `safe_float` is the identity. -/
theorem safe_float_num (q : ℚ) : safe_float (.num q) = some q := rfl

/-- The price-list validation accepts any two-element list and parses
its first element. -/
theorem polyPriceCheck_pair (x y : JsonVal) :
    polyPriceCheck (.arr [x, y]) = safe_float x := by
  simp +decide [polyPriceCheck, truthy, pyLen, pyIndex0]

/-- C5: `fetch_polymarket` accepts a list payload and the object-wrapped
forms under a `data` or `markets` key, producing the same observations
for the same records; and numeric fields arriving as strings parse to
the same values as numbers — for `safe_float` itself, for a string
`liquidity` field (when nonzero, so that the truthiness-based fallback
picks the same field), and for a string first outcome price. -/
theorem C5_shape_and_string_tolerance (l : List JsonVal)
    (kvs : List (String × JsonVal)) (s : String) (q : ℚ) (v2 : JsonVal) :
    (fetch_polymarket (.response 200 (.obj [("data", .arr l)]))
        = fetch_polymarket (.response 200 (.arr l))
      ∧ fetch_polymarket (.response 200 (.obj [("markets", .arr l)]))
        = fetch_polymarket (.response 200 (.arr l)))
    ∧ (strToFloat s = some q → safe_float (.str s) = safe_float (.num q))
    ∧ (strToFloat s = some q → q ≠ 0 →
        polyRecord (.obj (("liquidity", .str s) :: kvs))
          = polyRecord (.obj (("liquidity", .num q) :: kvs)))
    ∧ (strToFloat s = some q →
        polyRecord (.obj (("outcomePrices", .arr [.str s, v2]) :: kvs))
          = polyRecord (.obj (("outcomePrices", .arr [.num q, v2]) :: kvs))) := by
  refine ⟨⟨?_, ?_⟩, ?_, ?_, ?_⟩
  · simp +decide [fetch_polymarket, extractPolyData, dictContains, jget, iterElems]
  · simp +decide [fetch_polymarket, extractPolyData, dictContains, jget, iterElems]
  · intro h
    rw [safe_float_str_of_parse h, safe_float_num]
  · intro h hq
    have hs : s ≠ "" := strToFloat_some_ne_empty h
    simp +decide only [polyRecord, polyLiquidity, polyPricesVal, jget_cons, if_true, if_false]
    rw [show pyOr (.str s) (jget kvs "liquidityNum") = .str s from by simp [pyOr, truthy, hs],
        show pyOr (.num q) (jget kvs "liquidityNum") = .num q from by simp [pyOr, truthy, hq],
        safe_float_str_of_parse h, safe_float_num]
  · intro h
    simp +decide only [polyRecord, polyLiquidity, polyPricesVal, jget_cons, if_true, if_false]
    rw [show pyOr (.arr [JsonVal.str s, v2]) (jget kvs "outcome_prices")
          = .arr [JsonVal.str s, v2] from by simp [pyOr, truthy],
        show pyOr (.arr [JsonVal.num q, v2]) (jget kvs "outcome_prices")
          = .arr [JsonVal.num q, v2] from by simp [pyOr, truthy]]
    dsimp only
    rw [polyPriceCheck_pair, polyPriceCheck_pair,
        safe_float_str_of_parse h, safe_float_num]

/-- Witness for C5: the string `"0.4"` behaves as the number `2/5` for
`safe_float`. -/
theorem C5_shape_and_string_tolerance_witness :
    safe_float (.str "0.4") = safe_float (.num (2/5)) :=
  (C5_shape_and_string_tolerance [] [] "0.4" (2/5) .null).2.1
    (by simp +decide [strToFloat, parseUnsigned, natOfDigits,
          List.takeWhile, List.dropWhile]
        norm_num)

/-- Inversion of a successful Polymarket record parse: all the guards of
the loop body passed and the emitted market is built from the parsed
fields. -/
theorem polyRecord_some_inv {m : JsonVal} {mk : Market} (h : polyRecord m = some mk) :
    ∃ kvs liq prices q0,
      m = .obj kvs
      ∧ truthy (jget kvs "closed") = false
      ∧ truthy (jget kvs "active") = true
      ∧ polyLiquidity kvs = some liq ∧ liq ≠ 0
      ∧ polyPricesVal kvs = some prices
      ∧ polyPriceCheck prices = some q0
      ∧ mk = ⟨"poly|" ++ pyStr (jget kvs "id"), "Polymarket", jget kvs "question", liq, q0⟩ := by
  cases m with
  | obj kvs =>
    simp only [polyRecord] at h
    by_cases hcl : truthy (jget kvs "closed") = true
    · rw [if_pos hcl] at h; exact Option.noConfusion h
    · rw [if_neg hcl] at h
      by_cases hac : (!truthy (jget kvs "active")) = true
      · rw [if_pos hac] at h; exact Option.noConfusion h
      · rw [if_neg hac] at h
        have hclf : truthy (jget kvs "closed") = false := by simpa using hcl
        have hact : truthy (jget kvs "active") = true := by simpa using hac
        split at h
        · exact Option.noConfusion h
        · next liq hL =>
          split at h
          · exact Option.noConfusion h
          · next h0 =>
            split at h
            · exact Option.noConfusion h
            · next prices hP =>
              split at h
              · exact Option.noConfusion h
              · next q0 hC =>
                injection h with h
                subst h
                exact ⟨kvs, liq, prices, q0, rfl, hclf, hact, hL, h0, hP, hC, rfl⟩
  | null => exact Option.noConfusion h
  | bool b => exact Option.noConfusion h
  | num q => exact Option.noConfusion h
  | str s => exact Option.noConfusion h
  | arr l => exact Option.noConfusion h

/-- Inversion of a successful Kalshi record parse. -/
theorem kalshiRecord_some_inv {kvs : List (String × JsonVal)} {mk : Market}
    (h : kalshiRecord kvs = some mk) :
    ∃ liq yb, safe_float (jget kvs "liquidity") = some liq
      ∧ safe_float (jget kvs "yes_bid") = some yb
      ∧ mk = ⟨"kalshi|" ++ pyStr (jget kvs "ticker"), "Kalshi", jget kvs "title",
              liq, yb / 100⟩ := by
  simp only [kalshiRecord] at h
  split at h
  · next liq yb hl hy =>
    injection h with h
    subst h
    exact ⟨liq, yb, hl, hy, rfl⟩
  · exact Option.noConfusion h

/-- Inversion of a successful Manifold record parse. -/
theorem manifoldRecord_some_inv {kvs : List (String × JsonVal)} {mk : Market}
    (h : manifoldRecord kvs = some mk) :
    ∃ liq pr, truthy (jget kvs "isResolved") = false
      ∧ safe_float (jget kvs "volume24Hours") = some liq
      ∧ safe_float (jget kvs "probability") = some pr
      ∧ mk = ⟨"manifold|" ++ pyStr (jget kvs "id"), "Manifold", jget kvs "question",
              liq, pr⟩ := by
  simp only [manifoldRecord] at h
  by_cases hr : truthy (jget kvs "isResolved") = true
  · rw [if_pos hr] at h; exact Option.noConfusion h
  · rw [if_neg hr] at h
    have hrf : truthy (jget kvs "isResolved") = false := by simpa using hr
    split at h
    · next liq pr hv hp =>
      injection h with h
      subst h
      exact ⟨liq, pr, hrf, hv, hp, rfl⟩
    · exact Option.noConfusion h

/-- Inversion of a successful price-list validation. -/
theorem polyPriceCheck_some_inv {prices : JsonVal} {q0 : ℚ}
    (h : polyPriceCheck prices = some q0) :
    truthy prices = true ∧ pyLen prices = some 2
      ∧ ∃ p0, pyIndex0 prices = some p0 ∧ safe_float p0 = some q0 := by
  simp only [polyPriceCheck] at h
  by_cases ht : (!truthy prices) = true
  · rw [if_pos ht] at h; exact Option.noConfusion h
  · rw [if_neg ht] at h
    have ht2 : truthy prices = true := by simpa using ht
    split at h
    · exact Option.noConfusion h
    · next n hn =>
      by_cases h2 : n ≠ 2
      · rw [if_pos h2] at h; exact Option.noConfusion h
      · rw [if_neg h2] at h
        have hn2 : n = 2 := not_not.mp h2
        subst hn2
        split at h
        · exact Option.noConfusion h
        · next p0 hp0 => exact ⟨ht2, hn, p0, hp0, h⟩

/-- C6 counterexample: the Polymarket normalizer performs no range
validation — a record with liquidity `-5` and first outcome price `3/2`
is accepted, emitting an observation with probability above 1 and
negative liquidity. -/
theorem C6_counterexample :
    fetch_polymarket (.response 200 (.arr
      [.obj [("active", .bool true), ("liquidity", .num (-5)),
             ("outcomePrices", .arr [.num (3/2), .num (1/4)]),
             ("id", .str "X"), ("question", .str "Q")]]))
      = [⟨"poly|X", "Polymarket", .str "Q", -5, 3/2⟩]
    ∧ ¬((3 : ℚ)/2 ≤ 1) ∧ ¬((0 : ℚ) ≤ -5) := by
  refine ⟨?_, by norm_num, by norm_num⟩
  simp +decide [fetch_polymarket, extractPolyData, iterElems, polyRecord, polyLiquidity,
    polyPricesVal, polyPriceCheck, jget, pyOr, truthy, pyLen, pyIndex0, safe_float,
    floatConv, Except.toOption, pyStr]

/-- C6 (amended): every emitted observation carries exactly the parsed
raw values — liquidity is the parsed liquidity field, and probability is
the parsed first outcome price (Polymarket), the parsed `yes_bid`
divided by 100 (Kalshi), or the parsed `probability` field (Manifold).
No range validation is applied, so probability lies in `[0,1]` and
liquidity is `≥ 0` exactly when those parsed raw values are. -/
theorem C6_no_range_validation (kvs : List (String × JsonVal)) (mk : Market) :
    (polyRecord (.obj kvs) = some mk →
      polyLiquidity kvs = some mk.liquidity
      ∧ ∃ prices, polyPricesVal kvs = some prices ∧ polyPriceCheck prices = some mk.prob)
    ∧ (kalshiRecord kvs = some mk →
      safe_float (jget kvs "liquidity") = some mk.liquidity
      ∧ ∃ yb, safe_float (jget kvs "yes_bid") = some yb ∧ mk.prob = yb / 100)
    ∧ (manifoldRecord kvs = some mk →
      safe_float (jget kvs "volume24Hours") = some mk.liquidity
      ∧ safe_float (jget kvs "probability") = some mk.prob) := by
  refine ⟨?_, ?_, ?_⟩
  · intro h
    obtain ⟨kvs2, liq, prices, q0, heq, _, _, hL, _, hP, hC, hmk⟩ := polyRecord_some_inv h
    injection heq with heq
    subst heq
    subst hmk
    exact ⟨hL, prices, hP, hC⟩
  · intro h
    obtain ⟨liq, yb, hl, hy, hmk⟩ := kalshiRecord_some_inv h
    subst hmk
    exact ⟨hl, yb, hy, rfl⟩
  · intro h
    obtain ⟨liq, pr, _, hv, hp, hmk⟩ := manifoldRecord_some_inv h
    subst hmk
    exact ⟨hv, hp⟩

/-- Witness for C6 (amended): a concrete Manifold record whose emitted
observation carries exactly the parsed `volume24Hours` and `probability`
values. -/
theorem C6_no_range_validation_witness :
    safe_float (jget [("volume24Hours", JsonVal.num 10), ("probability", JsonVal.num (1/2)),
        ("id", JsonVal.str "m"), ("question", JsonVal.str "W")] "volume24Hours")
      = some (10 : ℚ)
    ∧ safe_float (jget [("volume24Hours", JsonVal.num 10), ("probability", JsonVal.num (1/2)),
        ("id", JsonVal.str "m"), ("question", JsonVal.str "W")] "probability")
      = some ((1 : ℚ)/2) :=
  (C6_no_range_validation
    [("volume24Hours", JsonVal.num 10), ("probability", JsonVal.num (1/2)),
     ("id", JsonVal.str "m"), ("question", JsonVal.str "W")]
    ⟨"manifold|m", "Manifold", .str "W", 10, 1/2⟩).2.2
    (by simp +decide [manifoldRecord, jget, truthy, safe_float, floatConv,
          Except.toOption, pyStr])

/-- C10 counterexample: `fetch_polymarket` emits an observation from a
record whose second outcome price `"abc"` is unparseable — only the
first price must parse, refuting the claim that the source record has
exactly two parseable outcome prices. -/
theorem C10_counterexample :
    fetch_polymarket (.response 200 (.arr
      [.obj [("active", .bool true), ("liquidity", .str "50"),
             ("outcomePrices", .arr [.str "0.4", .str "abc"]),
             ("id", .str "42"), ("question", .str "Q")]]))
      = [⟨"poly|42", "Polymarket", .str "Q", 50, 2/5⟩]
    ∧ safe_float (.str "abc") = none := by
  constructor
  · simp +decide [fetch_polymarket, extractPolyData, iterElems, polyRecord, polyLiquidity,
      polyPricesVal, polyPriceCheck, jget, pyOr, truthy, pyLen, pyIndex0, safe_float,
      floatConv, Except.toOption, pyStr, strToFloat, parseUnsigned, natOfDigits,
      List.takeWhile, List.dropWhile]
    norm_num
  · simp +decide [safe_float, floatConv, strToFloat, parseUnsigned, natOfDigits,
      List.takeWhile, List.dropWhile]

/-- C10 (amended): every observation emitted by the Polymarket
normalizer comes from a dict record that is truthy-active and not
truthy-closed, has a parseable nonzero liquidity equal to the emitted
liquidity, and has an outcome-price value of length exactly two whose
first entry parses to the emitted probability (the second entry need not
parse); its key is `"poly|"` followed by the string form of the record's
id. -/
theorem C10_poly_source_conditions (m : JsonVal) (mk : Market)
    (h : polyRecord m = some mk) :
    ∃ kvs,
      m = .obj kvs
      ∧ truthy (jget kvs "closed") = false
      ∧ truthy (jget kvs "active") = true
      ∧ (∃ liq, polyLiquidity kvs = some liq ∧ liq ≠ 0 ∧ mk.liquidity = liq)
      ∧ (∃ prices, polyPricesVal kvs = some prices
          ∧ truthy prices = true
          ∧ pyLen prices = some 2
          ∧ ∃ p0, pyIndex0 prices = some p0 ∧ safe_float p0 = some mk.prob)
      ∧ mk.key = "poly|" ++ pyStr (jget kvs "id") := by
  obtain ⟨kvs, liq, prices, q0, heq, hcl, hac, hL, h0, hP, hC, hmk⟩ := polyRecord_some_inv h
  subst heq
  subst hmk
  obtain ⟨ht, hlen, p0, hp0, hsf⟩ := polyPriceCheck_some_inv hC
  exact ⟨kvs, rfl, hcl, hac, ⟨liq, hL, h0, rfl⟩, ⟨prices, hP, ht, hlen, p0, hp0, hsf⟩, rfl⟩

/-- Witness for C10 (amended), applied to a concrete emitted
observation. -/
theorem C10_poly_source_conditions_witness :
    ∃ kvs,
      JsonVal.obj [("active", JsonVal.bool true), ("liquidity", JsonVal.num 7),
          ("outcomePrices", JsonVal.arr [JsonVal.num (1/4), JsonVal.num (3/4)]),
          ("id", JsonVal.str "7")] = .obj kvs
      ∧ truthy (jget kvs "closed") = false
      ∧ truthy (jget kvs "active") = true
      ∧ (∃ liq, polyLiquidity kvs = some liq ∧ liq ≠ 0
          ∧ (Market.mk "poly|7" "Polymarket" .null 7 (1/4)).liquidity = liq)
      ∧ (∃ prices, polyPricesVal kvs = some prices
          ∧ truthy prices = true
          ∧ pyLen prices = some 2
          ∧ ∃ p0, pyIndex0 prices = some p0
              ∧ safe_float p0 = some (Market.mk "poly|7" "Polymarket" .null 7 (1/4)).prob)
      ∧ (Market.mk "poly|7" "Polymarket" .null 7 (1/4)).key = "poly|" ++ pyStr (jget kvs "id") :=
  C10_poly_source_conditions
    (.obj [("active", JsonVal.bool true), ("liquidity", JsonVal.num 7),
           ("outcomePrices", JsonVal.arr [JsonVal.num (1/4), JsonVal.num (3/4)]),
           ("id", JsonVal.str "7")])
    ⟨"poly|7", "Polymarket", .null, 7, 1/4⟩
    (by simp +decide [polyRecord, polyLiquidity, polyPricesVal, polyPriceCheck, jget,
          pyOr, truthy, pyLen, pyIndex0, safe_float, floatConv, Except.toOption, pyStr])

/-- Keeping the last `N` of a capped window then appending equals
appending then keeping the last `N`. -/
theorem rtake_append_rtake (N : ℕ) (l : List ℚ) (d : ℚ) :
    (l.rtake N ++ [d]).rtake N = (l ++ [d]).rtake N := by
  simp only [List.rtake_eq_reverse_take_reverse, List.reverse_reverse,
    List.reverse_append, List.reverse_singleton, List.singleton_append]
  cases N with
  | zero => simp
  | succ n =>
    rw [List.take_succ_cons, List.take_succ_cons, List.take_take,
        min_eq_left (Nat.le_succ n)]

/-- Appending a delta under the FIFO cap keeps exactly the last `N`
entries. -/
theorem recordDelta_self (N : ℕ) (st : String → List ℚ) (key : String) (d : ℚ) :
    recordDelta N st key d key = ((st key) ++ [d]).rtake N := by
  simp only [recordDelta, eq_self_iff_true, if_true]
  by_cases h : N < (st key ++ [d]).length
  · rw [if_pos h]; rfl
  · rw [if_neg h, List.rtake, Nat.sub_eq_zero_of_le (Nat.le_of_not_lt h), List.drop_zero]

/-- Recording a delta for one key leaves every other window unchanged. -/
theorem recordDelta_other (N : ℕ) (st : String → List ℚ) (key k : String) (d : ℚ)
    (h : k ≠ key) : recordDelta N st key d k = st k := by
  simp [recordDelta, h]

/-- The window of a key after any event sequence holds exactly the last
`N` deltas recorded for that key. -/
theorem runDeltas_eq (N : ℕ) (events : List (String × ℚ)) (key : String) :
    runDeltas N events key = (deltasFor key events).rtake N := by
  induction events using List.reverseRecOn with
  | nil => simp [runDeltas, emptyTracker, deltasFor]
  | append_singleton es e ih =>
    obtain ⟨k0, d⟩ := e
    rw [runDeltas, List.foldl_append, List.foldl_cons, List.foldl_nil]
    by_cases hk : key = k0
    · subst hk
      show recordDelta N (runDeltas N es) key d key = _
      rw [recordDelta_self, ih, rtake_append_rtake]
      congr 1
      simp [deltasFor, List.filter_append]
    · show recordDelta N (runDeltas N es) k0 d key = _
      rw [recordDelta_other N _ k0 key d hk, ih]
      have hk2 : ¬(k0 = key) := fun h2 => hk h2.symm
      congr 1
      simp [deltasFor, List.filter_append, hk2]

/-- C1: for every market key and every sequence of recorded deltas,
`netLiquidity(key)` equals the sum of at most the last `N` deltas
recorded for that key (the window holds no more than `N` entries), and
it is `0` for a key for which no delta was ever recorded. -/
theorem C1_net_liquidity_window (N : ℕ) (events : List (String × ℚ)) (key : String) :
    netLiquidity (runDeltas N events) key = ((deltasFor key events).rtake N).sum
    ∧ ((deltasFor key events).rtake N).length ≤ N
    ∧ ((∀ e ∈ events, e.1 ≠ key) → netLiquidity (runDeltas N events) key = 0) := by
  have h := runDeltas_eq N events key
  refine ⟨by rw [netLiquidity, h], ?_, ?_⟩
  · rw [List.rtake, List.length_drop]
    omega
  · intro hall
    have hnil : deltasFor key events = [] := by
      rw [deltasFor, List.filter_eq_nil_iff.mpr ?_, List.map_nil]
      intro e he
      simpa using hall e he
    rw [netLiquidity, h, hnil]
    simp

/-- Witness for C1: a key with no recorded delta reads net liquidity 0
after other keys recorded deltas. -/
theorem C1_net_liquidity_window_witness :
    netLiquidity (runDeltas 2 [("a", (1 : ℚ)), ("a", 2), ("b", 5)]) "c" = 0 :=
  (C1_net_liquidity_window 2 [("a", (1 : ℚ)), ("a", 2), ("b", 5)] "c").2.2 (by decide)

/-- Confirming a setup in place does not change the set of keys. -/
theorem keys_confirmSetup (st : OpenSetups) (key : String) :
    (confirmSetup st key).map Prod.fst = st.map Prod.fst := by
  induction st with
  | nil => rfl
  | cons p st ih =>
    by_cases h : p.1 = key <;> simp [confirmSetup, h] <;>
      simpa [confirmSetup] using ih

/-- Removal preserves key distinctness. -/
theorem keysNodup_removeSetup (st : OpenSetups) (key : String) (h : keysNodup st) :
    keysNodup (removeSetup st key) :=
  List.Nodup.sublist (List.Sublist.map Prod.fst (List.filter_sublist st)) h

/-- An empty lookup means no entry carries the key. -/
theorem lookupSetup_none_iff (st : OpenSetups) (key : String) :
    lookupSetup st key = none ↔ ∀ p ∈ st, p.1 ≠ key := by
  simp [lookupSetup, List.find?_eq_none]

/-- Removal frees the key: the lookup after `removeSetup` is empty. -/
theorem lookupSetup_removeSetup (st : OpenSetups) (key : String) :
    lookupSetup (removeSetup st key) key = none := by
  rw [lookupSetup_none_iff]
  intro p hp
  rw [removeSetup, List.mem_filter] at hp
  simpa using hp.2

/-- Lookup on a freshly inserted setup. -/
theorem lookupSetup_cons_self (st : OpenSetups) (key : String) (s : Setup) :
    lookupSetup ((key, s) :: st) key = some s := by
  simp [lookupSetup, List.find?_cons]

/-- One per-key lifecycle step preserves key distinctness. -/
theorem keysNodup_stepKey (cfg : LifecycleConfig) (now : ℕ) (key : String)
    (r : Option (ℚ × ℚ)) (st : OpenSetups) (h : keysNodup st) :
    keysNodup (stepKey cfg now key r st).1 := by
  cases r with
  | none => exact h
  | some pr =>
    obtain ⟨net, prob⟩ := pr
    simp only [stepKey]
    cases hl : lookupSetup st key with
    | some s =>
      dsimp only
      split_ifs with h1 h2 h3
      · exact keysNodup_removeSetup st key h
      · exact keysNodup_removeSetup st key h
      · show keysNodup (confirmSetup st key)
        unfold keysNodup
        rw [keys_confirmSetup]
        exact h
      · exact h
    | none =>
      dsimp only
      by_cases h1 : cfg.alertThreshold ≤ |net|
      · rw [if_pos h1]
        show keysNodup ((key, _) :: st)
        unfold keysNodup
        rw [List.map_cons]
        refine List.nodup_cons.mpr ⟨?_, h⟩
        intro hmem
        obtain ⟨p, hp, hpk⟩ := List.mem_map.mp hmem
        exact (lookupSetup_none_iff st key).mp hl p hp hpk
      · rw [if_neg h1]
        exact h

/-- One full cycle preserves key distinctness. -/
theorem keysNodup_stepCycle (cfg : LifecycleConfig) (now : ℕ)
    (readings : List (String × Option (ℚ × ℚ))) (st : OpenSetups) (h : keysNodup st) :
    keysNodup (stepCycle cfg now readings st) := by
  induction readings generalizing st with
  | nil => exact h
  | cons r rest ih =>
    rw [stepCycle, List.foldl_cons]
    exact ih _ (keysNodup_stepKey cfg now r.1 r.2 st h)

/-- Every state reachable from the empty open-setups map has distinct
keys. -/
theorem keysNodup_runCycles (cfg : LifecycleConfig)
    (cycles : List (ℕ × List (String × Option (ℚ × ℚ)))) :
    keysNodup (runCycles cfg cycles) := by
  suffices hgen : ∀ (cs : List (ℕ × List (String × Option (ℚ × ℚ)))) (st : OpenSetups),
      keysNodup st → keysNodup (cs.foldl (fun acc c => stepCycle cfg c.1 c.2 acc) st) by
    exact hgen cycles [] (by simp [keysNodup])
  intro cs
  induction cs with
  | nil => exact fun st h => h
  | cons c rest ih =>
    intro st h
    rw [List.foldl_cons]
    exact ih _ (keysNodup_stepCycle cfg c.1 c.2 st h)

/-- Distinct keys bound the per-key entry count by one. -/
theorem count_le_one_of_keysNodup (st : OpenSetups) (k : String) (h : keysNodup st) :
    (st.filter (fun p => p.1 = k)).length ≤ 1 := by
  induction st with
  | nil => simp
  | cons p st ih =>
    rw [keysNodup, List.map_cons, List.nodup_cons] at h
    obtain ⟨hnm, hnd⟩ := h
    by_cases hp : p.1 = k
    · have hnil : st.filter (fun p2 => p2.1 = k) = [] := by
        rw [List.filter_eq_nil_iff]
        intro q hq
        simp only [decide_eq_true_eq]
        intro hqk
        exact hnm (List.mem_map.mpr ⟨q, hq, hqk.trans hp.symm⟩)
      simp [List.filter_cons, hp, hnil]
    · have hle := ih hnd
      simpa [List.filter_cons, hp] using hle

/-- C2: in every state reachable by any sequence of poll cycles the
engine holds at most one open setup per market key, every removal
(expiry or liquidity reversal, confirmed or not) frees the key, and a
later qualifying trigger on a free key opens a fresh unconfirmed
setup. -/
theorem C2_one_setup_per_key (cfg : LifecycleConfig)
    (cycles : List (ℕ × List (String × Option (ℚ × ℚ)))) (k : String) :
    ((runCycles cfg cycles).filter (fun p => p.1 = k)).length ≤ 1
    ∧ (∀ (now : ℕ) (net prob : ℚ) (st : OpenSetups) (s : Setup),
        lookupSetup st k = some s →
        (cfg.setupExpiry < now - s.openedAt ∨ |net| < cfg.alertThreshold) →
        lookupSetup (stepKey cfg now k (some (net, prob)) st).1 k = none)
    ∧ (∀ (now : ℕ) (net prob : ℚ) (st : OpenSetups),
        lookupSetup st k = none → cfg.alertThreshold ≤ |net| →
        ∃ s, lookupSetup (stepKey cfg now k (some (net, prob)) st).1 k = some s
          ∧ s.openedAt = now ∧ s.confirmed = false) := by
  refine ⟨count_le_one_of_keysNodup _ _ (keysNodup_runCycles cfg cycles), ?_, ?_⟩
  · intro now net prob st s hs hrem
    simp only [stepKey, hs]
    by_cases h1 : cfg.setupExpiry < now - s.openedAt
    · rw [if_pos h1]
      exact lookupSetup_removeSetup st k
    · rw [if_neg h1]
      rw [if_pos (hrem.resolve_left h1)]
      exact lookupSetup_removeSetup st k
  · intro now net prob st hnone hthr
    simp only [stepKey, hnone]
    rw [if_pos hthr]
    exact ⟨_, lookupSetup_cons_self st k _, rfl, rfl⟩

/-- Witness for C2: from the empty map, a 5000 net-liquidity move over a
3000 alert threshold opens a fresh unconfirmed setup for key `"a"`. -/
theorem C2_one_setup_per_key_witness :
    ∃ s, lookupSetup (stepKey ⟨3000, 10000, 1/20, 600⟩ 5 "a"
        (some ((5000 : ℚ), (2 : ℚ)/5)) []).1 "a" = some s
      ∧ s.openedAt = 5 ∧ s.confirmed = false :=
  (C2_one_setup_per_key ⟨3000, 10000, 1/20, 600⟩ [] "a").2.2 5 5000 (2/5) [] rfl
    (by rw [show |(5000 : ℚ)| = 5000 from abs_of_pos (by norm_num)]; norm_num)
